import Mathlib

/-!
Verification of the fallback-chain retrieval engine of `read-web-page`
(source: `src/index.ts`, reader module).  The engine's pure logic —
content validation, URL classification, tweet-path extraction, objective
filtering, cache freshness, and the strategy-chain orchestration — is
embedded shallowly.  Network effects (HTTP responses, the reader API, the
headless browser) are modelled as an explicit environment of outcomes, and
the HTML→Markdown converter (cheerio/turndown, an external collaborator per
the spec) as an environment-supplied function.  JavaScript strings are
modelled as their sequences of Unicode scalars; `toLowerCase`, `trim` and
`\s` are modelled on their ASCII behaviour, which is all the engine's fixed
phrases and the claims exercise.
-/

set_option maxRecDepth 40000

namespace ReadWebPage

/-- JS `p.isPrefixOf s`-style check on character lists (used to model
`String.prototype.includes` and `startsWith`). -/
def listIsPfx : List Char → List Char → Bool
  | [], _ => true
  | _ :: _, [] => false
  | a :: as, b :: bs => if a = b then listIsPfx as bs else false

/-- Does `pat` occur as a contiguous run inside `l`?  Models JS
`String.prototype.includes` (empty pattern occurs everywhere). -/
def strContainsAux (pat : List Char) : List Char → Bool
  | [] => pat.isEmpty
  | c :: rest => listIsPfx pat (c :: rest) || strContainsAux pat rest

/-- JS `s.includes(pat)`. -/
def strContains (s pat : String) : Bool :=
  strContainsAux pat.data s.data

/-- JS `s.toLowerCase()` (ASCII range). -/
def strLower (s : String) : String :=
  String.mk (s.data.map Char.toLower)

/-- The whitespace class of JS `\s` / `trim` (ASCII part). -/
def isSpaceChar (c : Char) : Bool :=
  c = ' ' || c = '\t' || c = '\n' || c = '\r' || c = '\x0b' || c = '\x0c'

/-- JS `s.trim()`: strip leading and trailing whitespace. -/
def jsTrim (s : String) : String :=
  String.mk (((s.data.dropWhile isSpaceChar).reverse.dropWhile isSpaceChar).reverse)

/-- JS `s.split(/\s+/)` on character lists: split on maximal whitespace
runs; a leading (resp. trailing) run contributes an empty first (resp.
last) token, exactly as the JS regex split does. -/
def wsSplitList : List Char → List (List Char)
  | [] => [[]]
  | c :: rest =>
    if isSpaceChar c then
      match rest with
      | [] => [[], []]
      | c2 :: _ =>
        if isSpaceChar c2 then wsSplitList rest
        else [] :: wsSplitList rest
    else
      match wsSplitList rest with
      | t :: ts => (c :: t) :: ts
      | [] => [[c]]

/-- JS `s.split(/\s+/)`. -/
def jsSplitWS (s : String) : List String :=
  (wsSplitList s.data).map (fun t => String.mk t)

/-- JS `s.split("\n")` on character lists. -/
def jsSplitLinesList : List Char → List (List Char)
  | [] => [[]]
  | c :: rest =>
    if c = '\n' then [] :: jsSplitLinesList rest
    else
      match jsSplitLinesList rest with
      | t :: ts => (c :: t) :: ts
      | [] => [[c]]

/-- JS `s.split("\n")`. -/
def jsSplitLines (s : String) : List String :=
  (jsSplitLinesList s.data).map (fun t => String.mk t)

/-- JS `lines.join("\n")`. -/
def joinLines : List String → String
  | [] => ""
  | l :: ls =>
    match ls with
    | [] => l
    | _ :: _ => l ++ "\n" ++ joinLines ls

-- --- Config (source: `index.ts`, `--- Config ---` section) ---

/-- `CACHE_TTL = 24 * 60 * 60 * 1000` (milliseconds). -/
def CACHE_TTL : Int := 24 * 60 * 60 * 1000

/-- `MIN_CONTENT_LENGTH = 200`. -/
def MIN_CONTENT_LENGTH : Nat := 200

/-- `JUNK_INDICATORS` verbatim from the source. -/
def JUNK_INDICATORS : List String :=
  [ "something went wrong"
  , "try again"
  , "please disable"
  , "enable javascript"
  , "browser not supported"
  , "access denied"
  , "please verify"
  , "checking your browser"
  , "just a moment"
  ]

-- --- Content quality check (source: `isJunkContent`, `isValidContent`) ---

/-- `isJunkContent`: the lowercased text contains some junk indicator. -/
def isJunkContent (text : String) : Bool :=
  JUNK_INDICATORS.any (fun indicator => strContains (strLower text) indicator)

/-- `isValidContent`: long enough and not junk. -/
def isValidContent (text : String) : Bool :=
  decide (MIN_CONTENT_LENGTH ≤ text.length) && !isJunkContent text

-- --- URL detection (source: `isTwitterUrl`, `extractTweetPath`) ---

/-- Strip a (lowercase, literal) pattern case-insensitively from the front
of `l`; returns the remainder on success.  Models matching a literal run of
a case-insensitive JS regex. -/
def stripCI (pat : List Char) (l : List Char) : Option (List Char) :=
  match pat, l with
  | [], rest => some rest
  | _ :: _, [] => none
  | p :: ps, c :: cs => if c.toLower = p then stripCI ps cs else none

/-- `isTwitterUrl`: the anchored regex
`/^https?:\/\/(x\.com|twitter\.com)\//i`, expanded into its four literal
alternatives. -/
def isTwitterUrl (url : String) : Bool :=
  [ "http://x.com/", "http://twitter.com/"
  , "https://x.com/", "https://twitter.com/"
  ].any (fun p => (stripCI p.data url.data).isSome)

/-- One attempt of the unanchored regex
`/(?:x\.com|twitter\.com)\/([^/]+)\/status\/(\d+)/i` at the head of `l`:
domain literal, slash, a nonempty run of non-slash characters (group 1,
kept in original case), the literal `/status/`, then a nonempty maximal
digit run (group 2).  Backtracking inside `[^/]+` cannot help (the next
pattern character is `/`), so the greedy maximal run is the only
candidate, as in the JS engine. -/
def matchTweetAt (l : List Char) : Option String :=
  match (match stripCI "x.com/".data l with
         | some r => some r
         | none => stripCI "twitter.com/".data l) with
  | none => none
  | some afterDomain =>
    let user := afterDomain.takeWhile (fun c => decide (c ≠ '/'))
    if user.isEmpty then none
    else
      match stripCI "/status/".data (afterDomain.drop user.length) with
      | none => none
      | some afterStatus =>
        let digits := afterStatus.takeWhile Char.isDigit
        if digits.isEmpty then none
        else some (String.mk user ++ "/status/" ++ String.mk digits)

/-- The JS regex search: try `matchTweetAt` at every start position, left
to right. -/
def scanTweet : List Char → Option String
  | [] => none
  | c :: rest =>
    match matchTweetAt (c :: rest) with
    | some r => some r
    | none => scanTweet rest

/-- `extractTweetPath`: first match of the tweet-path regex anywhere in
the URL, rendered as `user/status/digits`. -/
def extractTweetPath (url : String) : Option String :=
  scanTweet url.data

-- --- Cache (source: `cache` map, TTL check in `readWebPage`) ---

/-- A cache entry: content plus the `Date.now()` write stamp. -/
structure CacheEntry where
  content : String
  timestamp : Int
deriving DecidableEq

/-- The in-memory cache `Map<string, {content, timestamp}>`, as a lookup
function keyed on the exact URL string. -/
abbrev Cache := String → Option CacheEntry

/-- `cache.set(url, {content, timestamp: now})`: unconditional overwrite
of the entry for that exact URL string. -/
def cachePut (c : Cache) (url content : String) (now : Int) : Cache :=
  fun u => if u = url then some ⟨content, now⟩ else c u

/-- The Result Cache `get` contract of spec §4.2: the entry, unless absent
or expired (`now - fetchedAt >= TTL`).  `readWebPage` below performs the
same lookup-and-freshness test inline, exactly as the source does. -/
def cacheGet (c : Cache) (now : Int) (url : String) : Option String :=
  match c url with
  | none => none
  | some e => if now - e.timestamp < CACHE_TTL then some e.content else none

-- --- The effect environment ---

/-- Outcome of one HTTP round trip as the strategies observe it: an
exception (network error or `AbortSignal` timeout), a non-2xx response
(`!res.ok`), or a successful body. -/
inductive HttpOutcome where
  | err : HttpOutcome
  | notOk : HttpOutcome
  | ok : String → HttpOutcome
deriving DecidableEq

/-- The tweet object of the FXTwitter response.  `text` is the optional
`tweet.text` field; `formatted` carries the Markdown that `formatTweet`
renders from the full structured tweet (author, media, counters — fields
the engine never branches on; its rendering also calls the
locale-dependent `toLocaleString`, so it is carried as collaborator
output rather than re-derived). -/
structure Tweet where
  text : Option String
  formatted : String
deriving DecidableEq

/-- Outcome of the FXTwitter API call: exception, non-2xx, or a parsed
JSON body whose `tweet` field may be missing. -/
inductive FxOutcome where
  | err : FxOutcome
  | notOk : FxOutcome
  | ok : Option Tweet → FxOutcome
deriving DecidableEq

/-- The environment of one `readWebPage` call: the clock, the
HTML→Markdown converter (`htmlToMarkdown`, delegated to cheerio/turndown —
an external collaborator per spec §1), and the outcome each network-bound
provider would observe if invoked. -/
structure Env where
  now : Int
  conv : String → String
  fetchHttp : HttpOutcome
  fxApi : FxOutcome
  jinaHttp : HttpOutcome
  pw : Option String

-- --- Strategies (source: `tryFetch`, `tryFxTwitter`, `tryJina`,
-- `tryPlaywright`).  Each is total: every internal failure (exception,
-- timeout, bad status, validator rejection) becomes `none`, never a
-- thrown error, mirroring the source's catch-all handlers. ---

/-- `tryFetch`: direct HTTP GET; on success convert to Markdown and
self-validate. -/
def tryFetch (env : Env) : Option String :=
  match env.fetchHttp with
  | .err => none
  | .notOk => none
  | .ok html =>
    let markdown := env.conv html
    if isValidContent markdown then some markdown else none

/-- JS truthiness of an optional string (`undefined` and `""` are falsy). -/
def jsFalsyStr : Option String → Bool
  | none => true
  | some t => decide (t = "")

/-- `tryFxTwitter`, instrumented: the second component records whether the
network call was reached (it is not when the tweet path cannot be
parsed). -/
def tryFxTwitterI (env : Env) (url : String) : Option String × Bool :=
  match extractTweetPath url with
  | none => (none, false)
  | some _ =>
    match env.fxApi with
    | .err => (none, true)
    | .notOk => (none, true)
    | .ok none => (none, true)
    | .ok (some tweet) =>
      if jsFalsyStr tweet.text || decide ((jsTrim (tweet.text.getD "")).length < 10) then
        (none, true)
      else (some tweet.formatted, true)

/-- `tryFxTwitter` as the orchestrator sees it. -/
def tryFxTwitter (env : Env) (url : String) : Option String :=
  (tryFxTwitterI env url).1

/-- `tryJina`: reader API; the response text is validated directly. -/
def tryJina (env : Env) : Option String :=
  match env.jinaHttp with
  | .err => none
  | .notOk => none
  | .ok text => if isValidContent text then some text else none

/-- `tryPlaywright`: rendered-browser fetch.  When the browser yields a
page, its HTML is converted and returned with no validation at all. -/
def tryPlaywright (env : Env) : Option String :=
  match env.pw with
  | none => none
  | some html => some (env.conv html)

-- --- Objective filtering (source: `filterByObjective`) ---

/-- `filterByObjective`: keep the lines containing some keyword of
`objective.toLowerCase().split(/\s+/)` as a case-insensitive substring;
if none match, return the content unchanged. -/
def filterByObjective (content objective : String) : String :=
  let lines := jsSplitLines content
  let keywords := jsSplitWS (strLower objective)
  let relevant := lines.filter
    (fun line => keywords.any (fun kw => strContains (strLower line) kw))
  if relevant.length > 0 then joinLines relevant else content

/-- The keyword list as the spec's words describe it: the
whitespace-delimited words of the lowercased objective — hence no empty
keyword, unlike the JS `split(/\s+/)`, which yields an empty token for a
leading or trailing whitespace run (and for the empty objective). -/
def specKeywords (objective : String) : List String :=
  (jsSplitWS (strLower objective)).filter (fun w => decide (w ≠ ""))

/-- The objective filter exactly as the claim's words describe it (keep a
line iff it contains at least one whitespace-delimited keyword of the
objective; if zero lines match, return the original content).  Stated for
comparison with `filterByObjective`, the code's behaviour. -/
def filterByObjectiveSpec (content objective : String) : String :=
  let lines := jsSplitLines content
  let keywords := specKeywords objective
  let relevant := lines.filter
    (fun line => keywords.any (fun kw => strContains (strLower line) kw))
  if relevant.length > 0 then joinLines relevant else content

-- --- Orchestrator (source: `readWebPage`) ---

/-- The four strategies, in chain order. -/
inductive StrategyTag where
  | fetch : StrategyTag
  | fxtwitter : StrategyTag
  | jina : StrategyTag
  | playwright : StrategyTag
deriving DecidableEq

/-- Result of one `readWebPage` call: the returned value or thrown error,
the cache state after the call, and the strategies invoked, in order
(instrumentation for the spec's call-count properties). -/
structure RunResult where
  result : Except String String
  cache : Cache
  invoked : List StrategyTag

/-- `objective ? filterByObjective(result, objective) : result` — note the
JS truthiness: an empty-string objective skips the filter. -/
def applyObjective (content : String) : Option String → String
  | none => content
  | some o => if o = "" then content else filterByObjective content o

/-- Layers 3 and 4 of the chain (Jina, then Playwright, then failure),
shared by the twitter and non-twitter paths; `tr` is the trace so far. -/
def runChainTail (env : Env) (c : Cache) (url : String) (obj : Option String)
    (tr : List StrategyTag) : RunResult :=
  match tryJina env with
  | some result =>
    ⟨.ok (applyObjective result obj), cachePut c url result env.now, tr ++ [.jina]⟩
  | none =>
    match tryPlaywright env with
    | some result =>
      ⟨.ok (applyObjective result obj), cachePut c url result env.now,
        tr ++ [.jina, .playwright]⟩
    | none =>
      ⟨.error ("All providers failed for " ++ url), c, tr ++ [.jina, .playwright]⟩

/-- The strategy chain of `readWebPage` after the cache check: fetch, then
(twitter only) fxtwitter, then jina, then playwright; first present
content wins, is cached, and is objective-filtered on the way out. -/
def runChain (env : Env) (c : Cache) (url : String) (obj : Option String) : RunResult :=
  match tryFetch env with
  | some result =>
    ⟨.ok (applyObjective result obj), cachePut c url result env.now, [.fetch]⟩
  | none =>
    if isTwitterUrl url then
      match tryFxTwitter env url with
      | some result =>
        ⟨.ok (applyObjective result obj), cachePut c url result env.now,
          [.fetch, .fxtwitter]⟩
      | none => runChainTail env c url obj [.fetch, .fxtwitter]
    else runChainTail env c url obj [.fetch]

/-- `readWebPage(url, objective?, forceRefetch?)`: unless `forceRefetch`,
a fresh cache entry short-circuits the whole chain. -/
def readWebPage (env : Env) (c : Cache) (url : String) (obj : Option String)
    (force : Bool) : RunResult :=
  if force then runChain env c url obj
  else
    match c url with
    | some cached =>
      if env.now - cached.timestamp < CACHE_TTL then
        ⟨.ok (applyObjective cached.content obj), c, []⟩
      else runChain env c url obj
    | none => runChain env c url obj

-- --- Spec-side chain description (spec §4.4 steps 2–3), for the
-- refinement claim about ordering ---

/-- The ordered strategy list for a URL's classification (spec §4.4 step
2). -/
def orderedStrategies (url : String) : List StrategyTag :=
  [.fetch] ++ (if isTwitterUrl url then [.fxtwitter] else []) ++ [.jina, .playwright]

/-- One strategy's attempt, by tag. -/
def strategyAttempt (env : Env) (url : String) : StrategyTag → Option String
  | .fetch => tryFetch env
  | .fxtwitter => tryFxTwitter env url
  | .jina => tryJina env
  | .playwright => tryPlaywright env

/-- Spec §4.4 step 3: execute strictly in order, stop at the first present
content.  Returns the winning content (if any) and the list of strategies
invoked. -/
def firstSuccess (env : Env) (url : String) : List StrategyTag → Option String × List StrategyTag
  | [] => (none, [])
  | s :: rest =>
    match strategyAttempt env url s with
    | some c => (some c, [s])
    | none =>
      let r := firstSuccess env url rest
      (r.1, s :: r.2)

-- --- Proof-support definitions and concrete sample data ---

/-- `joinLines` at the character level, for the split/join round trip. -/
def joinLinesCh : List (List Char) → List Char
  | [] => []
  | t :: ts =>
    match ts with
    | [] => t
    | _ :: _ => t ++ '\n' :: joinLinesCh ts

/-- The everywhere-empty cache. -/
def cEmpty : Cache := fun _ => none

/-- A string below the 200-character minimum. -/
def shortSample : String := "Too short."

/-- 250 ordinary characters, free of every junk phrase. -/
def cleanSample : String := String.mk (List.replicate 250 'a')

/-- A 509-character page whose lowercase form contains
"enable javascript". -/
def junkSample : String :=
  String.mk (List.replicate 240 'x') ++ "Enable JavaScript to continue"
    ++ String.mk (List.replicate 240 'x')

/-- Valid 300-character reader-API output for the chain scenario. -/
def validJina : String := String.mk (List.replicate 300 'c')

/-- Scenario environment for the chain-order claim: the direct fetch
yields a too-short body, the reader API yields `validJina`, and the
browser (never to be reached) would yield a page. -/
def envC1 : Env := ⟨0, fun s => s, .ok "short html", .err, .ok validJina, some "UNREACHED"⟩

/-- Cache-hit scenario cache. -/
def cacheW3 : Cache :=
  fun u => if u = "https://w.example/" then some ⟨"Cached content here", 10⟩ else none

/-- Cache-hit scenario environment (20 - 10 is far below the TTL). -/
def envW3 : Env := ⟨20, fun s => s, .err, .err, .err, none⟩

/-- 300 characters of valid content for the force-refetch scenario. -/
def validC4 : String := String.mk (List.replicate 300 'b')

/-- Force-refetch scenario environment: the direct fetch succeeds. -/
def envC4 : Env := ⟨60, fun _ => validC4, .ok "<html>page</html>", .err, .err, none⟩

/-- A cache already holding a fresh (valid) entry for the scenario URL. -/
def cFresh : Cache :=
  fun u => if u = "https://c4.example/" then some ⟨"old cached", 50⟩ else none

/-- Environment in which every provider fails. -/
def envC5 : Env := ⟨0, fun s => s, .err, .err, .err, none⟩

/-- Environment for the rendered-browser scenario: layers 1–3 fail, the
browser renders a page, and the converter yields short junk. -/
def envP : Env := ⟨0, fun _ => "js required", .err, .err, .err, some "<p>x</p>"⟩

/-- A tweet whose text has 10 characters but only one besides trailing
whitespace. -/
def cexTweet : Tweet := ⟨some "a         ", "formatted tweet output"⟩

/-- Environment whose FXTwitter call returns `cexTweet`. -/
def cexEnvFx : Env := ⟨0, fun s => s, .err, .ok (some cexTweet), .err, none⟩

/-- Environment for the no-network-call part of the Social API claim. -/
def envFxW : Env := ⟨0, fun s => s, .err, .err, .err, none⟩

/-- Environment for the unfiltered-cache scenario: the direct fetch
succeeds with 300 valid characters. -/
def envC10 : Env := ⟨100, fun _ => validC4, .ok "<html>x</html>", .err, .err, none⟩

/-! ## General lemmas about the string primitives -/

theorem listIsPfx_refl (l : List Char) : listIsPfx l l = true := by
  induction l with
  | nil => rfl
  | cons c cs ih => simp [listIsPfx, ih]

theorem strContainsAux_append (pat pre : List Char) :
    strContainsAux pat (pre ++ pat) = true := by
  induction pre with
  | nil =>
    cases pat with
    | nil => rfl
    | cons c cs => simp [strContainsAux, listIsPfx_refl]
  | cons x xs ih => simp [strContainsAux, ih]

/-- Any string occurs inside anything it is appended to on the right. -/
theorem strContains_append_right (pre pat : String) :
    strContains (pre ++ pat) pat = true := by
  have h : (pre ++ pat).data = pre.data ++ pat.data := String.data_append pre pat
  simp only [strContains, h]
  exact strContainsAux_append pat.data pre.data

/-- JS `includes` with the empty pattern is always true. -/
theorem strContains_empty (s : String) : strContains s "" = true := by
  have h : ("" : String).data = [] := rfl
  simp only [strContains, h]
  cases hd : s.data with
  | nil => rfl
  | cons c rest => simp [strContainsAux, listIsPfx]

theorem jsSplitLinesList_ne_nil (l : List Char) : jsSplitLinesList l ≠ [] := by
  cases l with
  | nil => simp [jsSplitLinesList]
  | cons c rest =>
    simp only [jsSplitLinesList]
    split
    · simp
    · split <;> simp

theorem joinLines_cons_cons (a b : String) (ls : List String) :
    joinLines (a :: b :: ls) = a ++ "\n" ++ joinLines (b :: ls) := rfl

theorem joinLinesCh_cons_cons (t t2 : List Char) (ts : List (List Char)) :
    joinLinesCh (t :: t2 :: ts) = t ++ '\n' :: joinLinesCh (t2 :: ts) := rfl

theorem joinLines_data (ts : List (List Char)) :
    (joinLines (ts.map (fun t => String.mk t))).data = joinLinesCh ts := by
  induction ts with
  | nil => rfl
  | cons t ts ih =>
    cases ts with
    | nil => rfl
    | cons t2 ts2 =>
      simp only [List.map_cons] at ih ⊢
      rw [joinLines_cons_cons, String.data_append, String.data_append, ih,
        joinLinesCh_cons_cons]
      simp [List.append_assoc]

theorem joinLinesCh_split (l : List Char) :
    joinLinesCh (jsSplitLinesList l) = l := by
  induction l with
  | nil => rfl
  | cons c rest ih =>
    obtain ⟨t, ts, hs⟩ : ∃ t ts, jsSplitLinesList rest = t :: ts := by
      cases h : jsSplitLinesList rest with
      | nil => exact absurd h (jsSplitLinesList_ne_nil rest)
      | cons t ts => exact ⟨t, ts, rfl⟩
    by_cases hc : c = '\n'
    · subst hc
      have h : jsSplitLinesList ('\n' :: rest) = [] :: jsSplitLinesList rest := by
        simp [jsSplitLinesList]
      rw [h, hs]
      rw [hs] at ih
      show ([] : List Char) ++ '\n' :: joinLinesCh (t :: ts) = '\n' :: rest
      rw [List.nil_append, ih]
    · have h : jsSplitLinesList (c :: rest) = (c :: t) :: ts := by
        simp only [jsSplitLinesList, if_neg hc, hs]
      rw [h]
      rw [hs] at ih
      cases ts with
      | nil =>
        show c :: t = c :: rest
        rw [show t = rest from ih]
      | cons t2 ts2 =>
        show (c :: t) ++ '\n' :: joinLinesCh (t2 :: ts2) = c :: rest
        rw [List.cons_append]
        exact congrArg (List.cons c) ih

/-- `lines.join("\n")` undoes `split("\n")`. -/
theorem joinLines_jsSplitLines (s : String) :
    joinLines (jsSplitLines s) = s := by
  have h1 := joinLines_data (jsSplitLinesList s.data)
  rw [joinLinesCh_split] at h1
  calc joinLines (jsSplitLines s)
      = String.mk ((joinLines (jsSplitLines s)).data) := rfl
    _ = String.mk s.data := by rw [show jsSplitLines s = (jsSplitLinesList s.data).map (fun t => String.mk t) from rfl] at *; rw [h1]
    _ = s := rfl

theorem jsSplitLines_ne_nil (s : String) : jsSplitLines s ≠ [] := by
  simp only [jsSplitLines]
  intro h
  exact jsSplitLinesList_ne_nil s.data (List.map_eq_nil_iff.mp h)

/-! ## Lemmas about the objective filter -/

/-- Filtering by the empty objective returns the content unchanged: the
JS split yields the single keyword `""`, which every line contains. -/
theorem filterByObjective_with_empty (content : String) :
    filterByObjective content "" = content := by
  have hkw : jsSplitWS (strLower "") = [""] := rfl
  have hfil : (jsSplitLines content).filter
      (fun line => ([""] : List String).any (fun kw => strContains (strLower line) kw))
      = jsSplitLines content :=
    List.filter_eq_self.mpr (fun line _ => by
      simp only [List.any_cons, List.any_nil, Bool.or_false]
      exact strContains_empty (strLower line))
  have hlen : 0 < (jsSplitLines content).length :=
    List.length_pos.mpr (jsSplitLines_ne_nil content)
  simp only [filterByObjective, hkw, hfil, if_pos hlen]
  exact joinLines_jsSplitLines content

/-- The code's return (`objective ? filter(...) : result`) coincides with
the plain "filter if an objective was supplied" reading, because the
truthiness special case (`objective === ""`) filters to the identity
anyway. -/
theorem applyObjective_eq_match (content : String) (obj : Option String) :
    applyObjective content obj =
      (match obj with
       | some o => filterByObjective content o
       | none => content) := by
  cases obj with
  | none => rfl
  | some o =>
    by_cases ho : o = ""
    · subst ho
      simp [applyObjective, filterByObjective_with_empty]
    · simp [applyObjective, ho]

/-! ## Lemmas about the orchestrator -/

/-- With `forceRefetch`, `readWebPage` is exactly the strategy chain. -/
theorem readWebPage_force_run (env : Env) (c : Cache) (url : String)
    (obj : Option String) :
    readWebPage env c url obj true = runChain env c url obj := rfl

/-- On a cache miss (per the `get` contract), `readWebPage` is exactly
the strategy chain. -/
theorem readWebPage_miss_run (env : Env) (c : Cache) (url : String)
    (obj : Option String) (h : cacheGet c env.now url = none) :
    readWebPage env c url obj false = runChain env c url obj := by
  cases hc : c url with
  | none => simp [readWebPage, hc]
  | some e =>
    have hstale : ¬(env.now - e.timestamp < CACHE_TTL) := by
      intro hlt
      simp [cacheGet, hc, if_pos hlt] at h
    simp [readWebPage, hc, hstale]

/-- Both chain entry points reduce to `runChain`. -/
theorem readWebPage_run (env : Env) (c : Cache) (url : String)
    (obj : Option String) (force : Bool)
    (h : force = true ∨ cacheGet c env.now url = none) :
    readWebPage env c url obj force = runChain env c url obj := by
  rcases h with h | h
  · subst h; rfl
  · cases force with
    | true => rfl
    | false => exact readWebPage_miss_run env c url obj h

/-- The master characterization of the chain: its trace is the spec-side
first-success trace over the ordered strategy list, and its result and
cache state are determined by the first present content. -/
theorem runChain_char (env : Env) (c : Cache) (url : String) (obj : Option String) :
    (runChain env c url obj).invoked = (firstSuccess env url (orderedStrategies url)).2 ∧
    (match (firstSuccess env url (orderedStrategies url)).1 with
     | some r =>
        (runChain env c url obj).result = .ok (applyObjective r obj) ∧
        (runChain env c url obj).cache = cachePut c url r env.now
     | none =>
        (runChain env c url obj).result = .error ("All providers failed for " ++ url) ∧
        (runChain env c url obj).cache = c) := by
  by_cases htw : isTwitterUrl url <;>
    rcases hf : tryFetch env with _ | r1 <;>
    rcases hx : tryFxTwitter env url with _ | r2 <;>
    rcases hj : tryJina env with _ | r3 <;>
    rcases hp : tryPlaywright env with _ | r4 <;>
    simp [runChain, runChainTail, firstSuccess, strategyAttempt, orderedStrategies,
      htw, hf, hx, hj, hp]

/-! ## The claims -/

/-- Claim C1: on a cache miss, `readWebPage` attempts the strategies
strictly in the order Direct Fetch, then (for twitter URLs only) Social
API, then Reader API, then Rendered Browser, stopping at the first one
that returns present content and never invoking any later strategy: its
invocation trace and result coincide with the spec-side `firstSuccess`
fold over `orderedStrategies`.  In particular, when the direct fetch is
absent, the URL is not a social-media post, and the reader API returns
content, the result is the reader API's content and the trace is
`[fetch, jina]` (the browser is never invoked). -/
theorem readWebPage_strategy_order (env : Env) (c : Cache) (url : String)
    (obj : Option String) (force : Bool)
    (hmiss : force = true ∨ cacheGet c env.now url = none) :
    ((readWebPage env c url obj force).invoked =
        (firstSuccess env url (orderedStrategies url)).2) ∧
    (∀ r, (firstSuccess env url (orderedStrategies url)).1 = some r →
        (readWebPage env c url obj force).result = .ok (applyObjective r obj)) ∧
    ((firstSuccess env url (orderedStrategies url)).1 = none →
        (readWebPage env c url obj force).result =
          .error ("All providers failed for " ++ url)) ∧
    (tryFetch env = none → isTwitterUrl url = false →
      ∀ r, tryJina env = some r →
        (readWebPage env c url obj force).result = .ok (applyObjective r obj) ∧
        (readWebPage env c url obj force).invoked = [.fetch, .jina]) := by
  have hrun := readWebPage_run env c url obj force hmiss
  obtain ⟨h1, h2⟩ := runChain_char env c url obj
  refine ⟨by rw [hrun, h1], ?_, ?_, ?_⟩
  · intro r hr
    rw [hr] at h2
    rw [hrun, h2.1]
  · intro hr
    rw [hr] at h2
    rw [hrun, h2.1]
  · intro hf htw r hj
    have hfs : firstSuccess env url (orderedStrategies url) = (some r, [.fetch, .jina]) := by
      simp [orderedStrategies, htw, firstSuccess, strategyAttempt, hf, hj]
    rw [hfs] at h1 h2
    exact ⟨by rw [hrun, h2.1], by rw [hrun, h1]⟩

/-- Witness for C1: in `envC1` the direct fetch yields a too-short body,
the URL is not a social-media post, and the reader API yields the valid
`validJina`; the orchestrator returns exactly that content, the trace is
`[fetch, jina]`, and the rendered browser is never invoked. -/
theorem readWebPage_strategy_order_witness :
    (readWebPage envC1 cEmpty "https://news.example/a" none false).result =
      .ok validJina ∧
    (readWebPage envC1 cEmpty "https://news.example/a" none false).invoked =
      [.fetch, .jina] ∧
    StrategyTag.playwright ∉
      (readWebPage envC1 cEmpty "https://news.example/a" none false).invoked := by
  have h := (readWebPage_strategy_order envC1 cEmpty "https://news.example/a" none false
      (Or.inr rfl)).2.2.2 rfl (by decide) validJina rfl
  exact ⟨h.1, h.2, by rw [h.2]; decide⟩

/-- Claim C2: the content validator rejects every text shorter than 200
characters; accepts every text of 200 or more characters whose lowercase
form contains none of the fixed junk phrases; and rejects every text
whose lowercase form contains "enable javascript" anywhere. -/
theorem isValidContent_cases :
    (∀ t : String, t.length < MIN_CONTENT_LENGTH → isValidContent t = false) ∧
    (∀ t : String, MIN_CONTENT_LENGTH ≤ t.length →
      (∀ j ∈ JUNK_INDICATORS, strContains (strLower t) j = false) →
      isValidContent t = true) ∧
    (∀ t : String, strContains (strLower t) "enable javascript" = true →
      isValidContent t = false) := by
  refine ⟨?_, ?_, ?_⟩
  · intro t h
    have hd : decide (MIN_CONTENT_LENGTH ≤ t.length) = false :=
      decide_eq_false (by omega)
    simp [isValidContent, hd]
  · intro t hlen hjunk
    have hj : isJunkContent t = false :=
      List.any_eq_false.mpr (fun j hjmem => by rw [hjunk j hjmem]; simp)
    simp [isValidContent, hj, hlen]
  · intro t h
    have hj : isJunkContent t = true :=
      List.any_eq_true.mpr ⟨"enable javascript", by simp [JUNK_INDICATORS], h⟩
    simp [isValidContent, hj]

/-- Witness for C2 at the three concrete samples. -/
theorem isValidContent_cases_witness :
    isValidContent shortSample = false ∧
    isValidContent cleanSample = true ∧
    isValidContent junkSample = false :=
  ⟨isValidContent_cases.1 shortSample (by decide),
   isValidContent_cases.2.1 cleanSample (by decide) (by decide),
   isValidContent_cases.2.2 junkSample (by decide)⟩

/-- Claim C3: a call with `forceRefetch=false` against a cache entry
written strictly less than 24 hours ago returns the cached content
(objective-filtered when an objective is supplied), leaves the cache
untouched, and invokes no strategy; and the cache `get` contract treats
an entry as absent exactly when none exists or `now - fetchedAt ≥ TTL`. -/
theorem readWebPage_cache_hit (env : Env) (c : Cache) (url : String)
    (obj : Option String) (e : CacheEntry)
    (he : c url = some e) (hfresh : env.now - e.timestamp < CACHE_TTL) :
    readWebPage env c url obj false =
      ⟨.ok (match obj with
            | some o => filterByObjective e.content o
            | none => e.content), c, []⟩ ∧
    (∀ (c2 : Cache) (now : Int) (u : String),
      cacheGet c2 now u = none ↔
        (c2 u = none ∨ ∃ e2, c2 u = some e2 ∧ CACHE_TTL ≤ now - e2.timestamp)) := by
  constructor
  · rw [← applyObjective_eq_match e.content obj]
    simp [readWebPage, he, hfresh]
  · intro c2 now u
    cases hc : c2 u with
    | none => simp [cacheGet, hc]
    | some e2 =>
      by_cases hf : now - e2.timestamp < CACHE_TTL
      · simp only [cacheGet, hc]
        rw [if_pos hf]
        simp [hc]
        omega
      · simp only [cacheGet, hc]
        rw [if_neg hf]
        simp [hc]
        omega

/-- Witness for C3: the fresh entry of `cacheW3` is returned filtered by
the supplied objective, and no strategy runs. -/
theorem readWebPage_cache_hit_witness :
    readWebPage envW3 cacheW3 "https://w.example/" (some "content") false =
      ⟨.ok (filterByObjective "Cached content here" "content"), cacheW3, []⟩ ∧
    (cacheGet cacheW3 envW3.now "https://w.example/" = none ↔
      (cacheW3 "https://w.example/" = none ∨
       ∃ e2, cacheW3 "https://w.example/" = some e2 ∧
         CACHE_TTL ≤ envW3.now - e2.timestamp)) := by
  have h := readWebPage_cache_hit envW3 cacheW3 "https://w.example/" (some "content")
    ⟨"Cached content here", 10⟩ (by decide) (by decide)
  exact ⟨h.1, h.2 cacheW3 envW3.now "https://w.example/"⟩

/-- The first-success trace over a nonempty strategy list starts with the
first strategy: it is always attempted. -/
theorem firstSuccess_head (env : Env) (url : String) (s : StrategyTag)
    (rest : List StrategyTag) :
    ((firstSuccess env url (s :: rest)).2).head? = some s := by
  rcases h : strategyAttempt env url s with _ | r <;> simp [firstSuccess, h]

/-- Claim C4: with `forceRefetch=true`, `readWebPage` never reads the
cache — its result and trace are the same for every cache state, even one
holding a fresh entry — the chain is re-executed (the trace starts with
the direct fetch), `put` overwrites unconditionally, and a successful
retrieval overwrites the entry for that exact URL string with the new
content. -/
theorem readWebPage_forceRefetch (env : Env) (c c2 : Cache) (url : String)
    (obj : Option String) :
    ((readWebPage env c url obj true).result =
      (readWebPage env c2 url obj true).result) ∧
    ((readWebPage env c url obj true).invoked =
      (readWebPage env c2 url obj true).invoked) ∧
    ((readWebPage env c url obj true).invoked.head? = some .fetch) ∧
    (∀ (c3 : Cache) (u content : String) (now : Int),
      cachePut c3 u content now u = some ⟨content, now⟩) ∧
    (∀ v, (readWebPage env c url obj true).result = Except.ok v →
      ∃ raw, (readWebPage env c url obj true).cache url = some ⟨raw, env.now⟩ ∧
        v = applyObjective raw obj) := by
  obtain ⟨hI1, hM1⟩ := runChain_char env c url obj
  obtain ⟨hI2, hM2⟩ := runChain_char env c2 url obj
  rw [readWebPage_force_run env c url obj, readWebPage_force_run env c2 url obj]
  have hhead : ((firstSuccess env url (orderedStrategies url)).2).head? = some .fetch := by
    show ((firstSuccess env url (.fetch ::
      ((if isTwitterUrl url then [.fxtwitter] else []) ++ [.jina, .playwright]))).2).head?
        = some .fetch
    exact firstSuccess_head env url .fetch _
  cases hfs : (firstSuccess env url (orderedStrategies url)).1 with
  | none =>
    simp only [hfs] at hM1 hM2
    refine ⟨by rw [hM1.1, hM2.1], by rw [hI1, hI2], by rw [hI1]; exact hhead, ?_, ?_⟩
    · intro c3 u content now; simp [cachePut]
    · intro v hv
      rw [hM1.1] at hv
      exact absurd hv (by simp)
  | some r =>
    simp only [hfs] at hM1 hM2
    refine ⟨by rw [hM1.1, hM2.1], by rw [hI1, hI2], by rw [hI1]; exact hhead, ?_, ?_⟩
    · intro c3 u content now; simp [cachePut]
    · intro v hv
      rw [hM1.1] at hv
      simp only [Except.ok.injEq] at hv
      exact ⟨r, by rw [hM1.2]; simp [cachePut], hv.symm⟩

/-- Witness for C4: `cFresh` holds a fresh entry for the URL, yet the
forced call behaves exactly as with an empty cache, re-runs the chain
starting at the direct fetch, and overwrites the entry with the newly
fetched `validC4`. -/
theorem readWebPage_forceRefetch_witness :
    ((readWebPage envC4 cFresh "https://c4.example/" none true).result =
      (readWebPage envC4 cEmpty "https://c4.example/" none true).result) ∧
    cFresh "https://c4.example/" = some ⟨"old cached", 50⟩ ∧
    envC4.now - 50 < CACHE_TTL ∧
    ((readWebPage envC4 cFresh "https://c4.example/" none true).invoked.head? =
      some .fetch) ∧
    ∃ raw, (readWebPage envC4 cFresh "https://c4.example/" none true).cache
        "https://c4.example/" = some ⟨raw, envC4.now⟩ ∧
      validC4 = applyObjective raw none := by
  obtain ⟨h1, h2, h3, h4, h5⟩ :=
    readWebPage_forceRefetch envC4 cFresh cEmpty "https://c4.example/" none
  exact ⟨h1, by decide, by decide, h3, h5 validC4 rfl⟩

/-- Claim C5: when every applicable strategy returns absent (on a cache
miss), `readWebPage` fails with an error rather than returning content,
and the error message contains the URL and states that all providers
failed. -/
theorem readWebPage_exhausted (env : Env) (c : Cache) (url : String)
    (obj : Option String) (force : Bool)
    (hmiss : force = true ∨ cacheGet c env.now url = none)
    (h1 : tryFetch env = none)
    (h2 : isTwitterUrl url = true → tryFxTwitter env url = none)
    (h3 : tryJina env = none) (h4 : tryPlaywright env = none) :
    (readWebPage env c url obj force).result =
      .error ("All providers failed for " ++ url) ∧
    strContains ("All providers failed for " ++ url) url = true := by
  have hfs : (firstSuccess env url (orderedStrategies url)).1 = none := by
    by_cases htw : isTwitterUrl url
    · simp [orderedStrategies, htw, firstSuccess, strategyAttempt, h1, h2 htw, h3, h4]
    · simp [orderedStrategies, htw, firstSuccess, strategyAttempt, h1, h3, h4]
  obtain ⟨hI, hM⟩ := runChain_char env c url obj
  simp only [hfs] at hM
  have hrun := readWebPage_run env c url obj force hmiss
  exact ⟨by rw [hrun, hM.1], strContains_append_right _ url⟩

/-- Witness for C5 in the all-providers-fail environment. -/
theorem readWebPage_exhausted_witness :
    (readWebPage envC5 cEmpty "https://fail.example/" none false).result =
      .error ("All providers failed for " ++ "https://fail.example/") ∧
    strContains ("All providers failed for " ++ "https://fail.example/")
      "https://fail.example/" = true :=
  readWebPage_exhausted envC5 cEmpty "https://fail.example/" none false
    (Or.inr rfl) rfl (fun _ => rfl) rfl rfl

/-- Claim C6: every strategy-internal failure — a thrown network error or
timeout (`err`), a non-success HTTP status (`notOk`), or a validator
rejection — yields an absent result from that strategy (the strategy
functions are total, so no exception reaches the caller), and on a
direct-fetch failure the orchestrator proceeds to at least one further
strategy. -/
theorem strategy_failures_to_absent :
    (∀ env : Env, env.fetchHttp = .err ∨ env.fetchHttp = .notOk →
      tryFetch env = none) ∧
    (∀ (env : Env) (html : String), env.fetchHttp = .ok html →
      isValidContent (env.conv html) = false → tryFetch env = none) ∧
    (∀ (env : Env) (url : String), env.fxApi = .err ∨ env.fxApi = .notOk →
      tryFxTwitter env url = none) ∧
    (∀ env : Env, env.jinaHttp = .err ∨ env.jinaHttp = .notOk →
      tryJina env = none) ∧
    (∀ (env : Env) (text : String), env.jinaHttp = .ok text →
      isValidContent text = false → tryJina env = none) ∧
    (∀ env : Env, env.pw = none → tryPlaywright env = none) ∧
    (∀ (env : Env) (c : Cache) (url : String) (obj : Option String),
      tryFetch env = none → 2 ≤ (runChain env c url obj).invoked.length) := by
  refine ⟨?_, ?_, ?_, ?_, ?_, ?_, ?_⟩
  · rintro env (h | h) <;> simp [tryFetch, h]
  · intro env html h hv; simp [tryFetch, h, hv]
  · rintro env url (h | h) <;>
      (cases he : extractTweetPath url <;> simp [tryFxTwitter, tryFxTwitterI, he, h])
  · rintro env (h | h) <;> simp [tryJina, h]
  · intro env text h hv; simp [tryJina, h, hv]
  · intro env h; simp [tryPlaywright, h]
  · intro env c url obj hf
    by_cases htw : isTwitterUrl url
    · rcases hx : tryFxTwitter env url with _ | r2 <;>
        rcases hj : tryJina env with _ | r3 <;>
        rcases hp : tryPlaywright env with _ | r4 <;>
        simp [runChain, runChainTail, htw, hf, hx, hj, hp]
    · rcases hj : tryJina env with _ | r3 <;>
        rcases hp : tryPlaywright env with _ | r4 <;>
        simp [runChain, runChainTail, htw, hf, hj, hp]

/-- Witness for C6: every provider of `envC5` fails by exception and each
strategy returns absent as a value; the chain still proceeds past the
direct fetch. -/
theorem strategy_failures_to_absent_witness :
    tryFetch envC5 = none ∧
    tryFxTwitter envC5 "https://x.com/a/status/1" = none ∧
    tryJina envC5 = none ∧ tryPlaywright envC5 = none ∧
    2 ≤ (runChain envC5 cEmpty "https://t.example/" none).invoked.length :=
  ⟨strategy_failures_to_absent.1 envC5 (Or.inl rfl),
   strategy_failures_to_absent.2.2.1 envC5 "https://x.com/a/status/1" (Or.inl rfl),
   strategy_failures_to_absent.2.2.2.1 envC5 (Or.inl rfl),
   strategy_failures_to_absent.2.2.2.2.2.1 envC5 rfl,
   strategy_failures_to_absent.2.2.2.2.2.2 envC5 cEmpty "https://t.example/" none rfl⟩

/-- Counterexample to claim C7 as stated: for the objective " price"
(leading whitespace), the JS `split(/\s+/)` yields the keyword list
`["", "price"]`; the empty keyword is a substring of every line, so the
code keeps the line "Contact us" although it contains no
whitespace-delimited keyword of the objective, while the claim's
keeps-exactly-the-matching-lines behaviour (`filterByObjectiveSpec`)
drops it. -/
theorem filterByObjective_claim_cex :
    filterByObjective "Price: $10\nContact us" " price" = "Price: $10\nContact us" ∧
    filterByObjectiveSpec "Price: $10\nContact us" " price" = "Price: $10" ∧
    strContains (strLower "Contact us") "price" = false ∧
    jsSplitWS (strLower " price") = ["", "price"] := by decide

/-- Claim C7 (amended): for every content string and every objective
whose lowercase whitespace-split form contains no empty token
(equivalently: the objective is nonempty and neither starts nor ends
with whitespace), objective filtering keeps exactly the lines containing
at least one whitespace-delimited keyword of the objective as a
case-insensitive substring, and returns the original content unchanged
when zero lines match. -/
theorem filterByObjective_amended (content objective : String)
    (h : ("" : String) ∉ jsSplitWS (strLower objective)) :
    (filterByObjective content objective = filterByObjectiveSpec content objective) ∧
    ((jsSplitLines content).any
        (fun line => (specKeywords objective).any
          (fun kw => strContains (strLower line) kw)) = true →
      filterByObjective content objective =
        joinLines ((jsSplitLines content).filter
          (fun line => (specKeywords objective).any
            (fun kw => strContains (strLower line) kw)))) ∧
    ((jsSplitLines content).all
        (fun line => !((specKeywords objective).any
          (fun kw => strContains (strLower line) kw))) = true →
      filterByObjective content objective = content) := by
  have hkw : specKeywords objective = jsSplitWS (strLower objective) :=
    List.filter_eq_self.mpr (fun w hw =>
      decide_eq_true (fun heq => h (heq ▸ hw)))
  refine ⟨?_, ?_, ?_⟩
  · simp only [filterByObjective, filterByObjectiveSpec, hkw]
  · intro hany
    have hne : (jsSplitLines content).filter
        (fun line => (specKeywords objective).any
          (fun kw => strContains (strLower line) kw)) ≠ [] := by
      rw [Ne, List.filter_eq_nil_iff]
      obtain ⟨line, hmem, hline⟩ := List.any_eq_true.mp hany
      intro hall
      exact absurd hline (hall line hmem)
    have hlen := List.length_pos.mpr hne
    simp only [filterByObjective, ← hkw]
    rw [if_pos hlen]
  · intro hall
    have hnil : (jsSplitLines content).filter
        (fun line => (specKeywords objective).any
          (fun kw => strContains (strLower line) kw)) = [] :=
      List.filter_eq_nil_iff.mpr (fun line hmem => by
        have := List.all_eq_true.mp hall line hmem
        simp only [Bool.not_eq_eq_eq_not, Bool.not_true] at this
        simp [this])
    simp only [filterByObjective, ← hkw, hnil]
    simp

/-- Witness for the amended C7 on the spec's own examples: a matching
objective keeps exactly the matching lines, and a non-matching objective
returns the content unchanged. -/
theorem filterByObjective_amended_witness :
    filterByObjective "Price: $10\nShipping: free\nContact us" "price shipping" =
      filterByObjectiveSpec "Price: $10\nShipping: free\nContact us" "price shipping" ∧
    filterByObjective "Price: $10\nShipping: free\nContact us" "price shipping" =
      "Price: $10\nShipping: free" ∧
    filterByObjective "Price: $10\nShipping: free\nContact us" "xyzzy" =
      "Price: $10\nShipping: free\nContact us" := by
  refine ⟨(filterByObjective_amended "Price: $10\nShipping: free\nContact us"
    "price shipping" (by decide)).1, by decide, ?_⟩
  exact (filterByObjective_amended "Price: $10\nShipping: free\nContact us"
    "xyzzy" (by decide)).2.2 (by decide)

/-- Counterexample to claim C8 as stated: `cexTweet`'s text is present
and 10 characters long, so by the claim the Social API strategy should
return it, yet the code trims the text first (`tweet.text.trim().length <
10`) and returns absent. -/
theorem tryFxTwitter_claim_cex :
    tryFxTwitter cexEnvFx "https://x.com/alice/status/123" = none ∧
    extractTweetPath "https://x.com/alice/status/123" = some "alice/status/123" ∧
    cexEnvFx.fxApi = .ok (some cexTweet) ∧
    cexTweet.text = some "a         " ∧
    ("a         " : String).length = 10 ∧
    (jsTrim "a         ").length < 10 := by decide

/-- Claim C8 (amended): the Social API strategy returns absent exactly
when the post path cannot be parsed from the URL, the API call fails or
returns no tweet object, or the tweet's text is missing or its
whitespace-trimmed form is shorter than 10 characters; and when the post
path cannot be parsed it returns absent immediately, without making any
network call. -/
theorem tryFxTwitter_absent_iff (env : Env) (url : String) :
    (tryFxTwitter env url = none ↔
      extractTweetPath url = none ∨ env.fxApi = .err ∨ env.fxApi = .notOk ∨
      env.fxApi = .ok none ∨
      (∃ tw, env.fxApi = .ok (some tw) ∧
        (jsTrim (tw.text.getD "")).length < 10)) ∧
    (extractTweetPath url = none → tryFxTwitterI env url = (none, false)) := by
  constructor
  · cases he : extractTweetPath url with
    | none => simp [tryFxTwitter, tryFxTwitterI, he]
    | some p =>
      cases hx : env.fxApi with
      | err => simp [tryFxTwitter, tryFxTwitterI, he, hx]
      | notOk => simp [tryFxTwitter, tryFxTwitterI, he, hx]
      | ok otw =>
        cases otw with
        | none => simp [tryFxTwitter, tryFxTwitterI, he, hx]
        | some tw =>
          by_cases hlen : (jsTrim (tw.text.getD "")).length < 10
          · have hgd : (jsFalsyStr tw.text
                || decide ((jsTrim (tw.text.getD "")).length < 10)) = true := by
              simp [decide_eq_true hlen]
            have hval : tryFxTwitter env url = none := by
              simp [tryFxTwitter, tryFxTwitterI, he, hx, hgd]
            rw [hval]
            exact iff_of_true rfl
              (Or.inr (Or.inr (Or.inr (Or.inr ⟨tw, rfl, hlen⟩))))
          · have hfal : jsFalsyStr tw.text = false := by
              rcases ht : tw.text with _ | t
              · have hz : (jsTrim (tw.text.getD "")).length < 10 := by
                  rw [ht]; decide
                exact absurd hz hlen
              · by_cases hemp : t = ""
                · have hz : (jsTrim (tw.text.getD "")).length < 10 := by
                    rw [ht, hemp]; decide
                  exact absurd hz hlen
                · simp [jsFalsyStr, ht, hemp]
            have hval : tryFxTwitter env url = some tw.formatted := by
              simp [tryFxTwitter, tryFxTwitterI, he, hx, hfal, hlen]
            rw [hval]
            apply iff_of_false (by simp)
            rintro (h | h | h | h | ⟨tw2, htw2, hlen2⟩)
            · exact Option.noConfusion h
            · exact FxOutcome.noConfusion h
            · exact FxOutcome.noConfusion h
            · simp at h
            · simp only [FxOutcome.ok.injEq, Option.some.injEq] at htw2
              subst htw2
              exact absurd hlen2 hlen
  · intro he
    simp [tryFxTwitterI, he]

/-- Witness for the amended C8: a URL with no tweet-path pattern makes
the strategy return absent with the network flag still false. -/
theorem tryFxTwitter_absent_iff_witness :
    tryFxTwitterI envFxW "https://example.com/page" = (none, false) :=
  (tryFxTwitter_absent_iff envFxW "https://example.com/page").2 (by decide)

/-- Claim C9: the Rendered-Browser strategy never runs the content
validator — whenever the browser yields a page, the strategy returns its
converted Markdown unconditionally, and when it is reached (all earlier
strategies absent, on a cache miss) the orchestrator returns that output
with no minimum-length or junk check. -/
theorem renderedBrowser_unvalidated (env : Env) (c : Cache) (url : String)
    (obj : Option String) (force : Bool)
    (hmiss : force = true ∨ cacheGet c env.now url = none) :
    (∀ html, env.pw = some html → tryPlaywright env = some (env.conv html)) ∧
    (tryFetch env = none → (isTwitterUrl url = true → tryFxTwitter env url = none) →
      tryJina env = none → ∀ html, env.pw = some html →
        (readWebPage env c url obj force).result =
          .ok (applyObjective (env.conv html) obj)) := by
  constructor
  · intro html h
    simp [tryPlaywright, h]
  · intro h1 h2 h3 html hpw
    have hp : tryPlaywright env = some (env.conv html) := by simp [tryPlaywright, hpw]
    have hfs : (firstSuccess env url (orderedStrategies url)).1 = some (env.conv html) := by
      by_cases htw : isTwitterUrl url
      · simp [orderedStrategies, htw, firstSuccess, strategyAttempt, h1, h2 htw, h3, hp]
      · simp [orderedStrategies, htw, firstSuccess, strategyAttempt, h1, h3, hp]
    obtain ⟨hI, hM⟩ := runChain_char env c url obj
    simp only [hfs] at hM
    rw [readWebPage_run env c url obj force hmiss, hM.1]

/-- Witness for C9: in `envP` the converter yields "js required" — short
and containing a junk-like phrase, hence invalid — yet the orchestrator
returns it as the rendered-browser result. -/
theorem renderedBrowser_unvalidated_witness :
    isValidContent "js required" = false ∧
    (readWebPage envP cEmpty "https://spa.example/" none true).result =
      .ok "js required" := by
  refine ⟨by decide, ?_⟩
  exact (renderedBrowser_unvalidated envP cEmpty "https://spa.example/" none true
    (Or.inl rfl)).2 rfl (fun htw => absurd htw (by decide)) rfl "<p>x</p>" rfl

/-- Claim C10: whenever a call actually retrieves (its trace is
nonempty) and succeeds, the cache entry for the URL holds the full
unfiltered content stamped at the current time, the caller receives the
objective-filtered view of that same content, and any later fresh-cache
call without an objective returns the complete unfiltered content
without invoking any strategy. -/
theorem cache_stores_unfiltered (env : Env) (c : Cache) (url : String)
    (obj : Option String) (force : Bool) :
    ∀ v, (readWebPage env c url obj force).result = Except.ok v →
      (readWebPage env c url obj force).invoked ≠ [] →
      ∃ raw, (readWebPage env c url obj force).cache url = some ⟨raw, env.now⟩ ∧
        v = applyObjective raw obj ∧
        (∀ env2 : Env, env2.now - env.now < CACHE_TTL →
          readWebPage env2 (readWebPage env c url obj force).cache url none false =
            ⟨Except.ok raw, (readWebPage env c url obj force).cache, []⟩) := by
  intro v hv hinv
  have hrun : readWebPage env c url obj force = runChain env c url obj := by
    cases force with
    | true => rfl
    | false =>
      cases hc : c url with
      | none => simp [readWebPage, hc]
      | some e =>
        by_cases hfr : env.now - e.timestamp < CACHE_TTL
        · exfalso
          have hemp : (readWebPage env c url obj false).invoked = [] := by
            simp [readWebPage, hc, hfr]
          exact hinv hemp
        · simp [readWebPage, hc, hfr]
  rw [hrun] at hv hinv ⊢
  obtain ⟨hI, hM⟩ := runChain_char env c url obj
  cases hfs : (firstSuccess env url (orderedStrategies url)).1 with
  | none =>
    simp only [hfs] at hM
    rw [hM.1] at hv
    exact absurd hv (by simp)
  | some r =>
    simp only [hfs] at hM
    rw [hM.1] at hv
    simp only [Except.ok.injEq] at hv
    refine ⟨r, ?_, hv.symm, ?_⟩
    · rw [hM.2]; simp [cachePut]
    · intro env2 hfr2
      rw [hM.2]
      have hlook : cachePut c url r env.now url = some ⟨r, env.now⟩ := by
        simp [cachePut]
      simp [readWebPage, hlook, hfr2, applyObjective]

/-- Witness for C10: a retrieval made with objective "zzz" stores the
full `validC4` (the filtered view is returned to the caller), and a
later objective-free call within the TTL returns the complete content
untouched, with no strategy invoked. -/
theorem cache_stores_unfiltered_witness :
    ∃ raw, (readWebPage envC10 cEmpty "https://u.example/" (some "zzz") false).cache
        "https://u.example/" = some ⟨raw, envC10.now⟩ ∧
      applyObjective validC4 (some "zzz") = applyObjective raw (some "zzz") ∧
      (∀ env2 : Env, env2.now - envC10.now < CACHE_TTL →
        readWebPage env2
            (readWebPage envC10 cEmpty "https://u.example/" (some "zzz") false).cache
            "https://u.example/" none false =
          ⟨Except.ok raw,
           (readWebPage envC10 cEmpty "https://u.example/" (some "zzz") false).cache,
           []⟩) :=
  cache_stores_unfiltered envC10 cEmpty "https://u.example/" (some "zzz") false
    (applyObjective validC4 (some "zzz")) rfl (by decide)

end ReadWebPage
